import Mathlib

/-!
Verification development for the demo HTTP service in `app.py`: an in-memory
item store with CRUD handlers, a JWT-style token service, and an auth-guarded
endpoint. The handlers are embedded as pure Lean functions over an explicit
store state; clock reads (Python `time.time()` / `datetime.utcnow()`) become
explicit `Nat` parameters, one per read in the source, and JSON bodies become
records of `Option String` fields (`none` = key absent, `some ""` = key
present with an empty value). Timestamps are modelled as natural numbers.
-/

/-! ## Configuration constants (defaults from the top of app.py) -/

def APP_NAME : String := "usman-apis-dashboard"

def VERSION : String := "v1"

def JWT_SECRET : String := "supersecret_demo_key"

def JWT_ALGO : String := "HS256"

def TOKEN_EXP_MINUTES : Nat := 60

/-! ## Item store data model -/

/-- An item record, as built by the dict literal in `create_item`:
keys `id`, `name`, `description`, `created_at`, and (after the first
successful update) `updated_at`. -/
structure Item where
  id : String
  name : String
  description : String
  created_at : Nat
  updated_at : Option Nat
deriving DecidableEq

/-- JSON body of a create/update request: `name` and `description` keys,
each possibly absent. -/
structure ItemBody where
  name : Option String
  description : Option String
deriving DecidableEq

/-- Python truthiness of `payload.get(key)` for a string-valued key:
falsy when the key is absent or its value is the empty string. -/
def truthy : Option String → Bool
  | none => false
  | some s => !(s == "")

/-- The store: the `_items` dict as an insertion-ordered association list,
plus the supply of fresh identifiers handed out by `uuid.uuid4()`, modelled
as a counter (each generated identifier is distinct from every earlier one;
this is the uniqueness property the source relies on from uuid4). -/
structure StoreState where
  items : List (String × Item)
  next : Nat
deriving DecidableEq

/-- Fresh identifier with index `n`: a non-empty string, injective in `n`
(the model of `str(uuid.uuid4())`). -/
def genId (n : Nat) : String :=
  "uuid-" ++ String.mk (List.replicate n 'x')

/-- Replace the value stored under key `k` (dict item mutation
`_items[id][field] = v` in the source). -/
def updateEntry (l : List (String × Item)) (k : String) (f : Item → Item) :
    List (String × Item) :=
  l.map (fun p => if p.1 == k then (p.1, f p.2) else p)

/-- Remove the entry with key `k` (the `_items.pop(id)` in the source). -/
def eraseEntry (l : List (String × Item)) (k : String) : List (String × Item) :=
  l.filter (fun p => !(p.1 == k))

/-- Responses of the CRUD handlers, tagged by what the source returns. -/
inductive CrudResp where
  /-- 201 with the created item as body. -/
  | created (it : Item)
  /-- 200 with an item as body. -/
  | okItem (it : Item)
  /-- 200 with body consisting of a deleted key holding the id. -/
  | okDeleted (id : String)
  /-- 404 with body consisting of an error key, value "not found". -/
  | notFound
  /-- 400 with body consisting of an error key, value "name required". -/
  | badRequest
deriving DecidableEq

/-- HTTP status code of a CRUD response. -/
def CrudResp.status : CrudResp → Nat
  | created _ => 201
  | okItem _ => 200
  | okDeleted _ => 200
  | notFound => 404
  | badRequest => 400

/-- `create_item` (POST /api/items): reject when `name` is absent or empty,
else store a new item under a fresh id with `created_at = now` and
`description` defaulting to the empty string. -/
def create_item (body : ItemBody) (now : Nat) (s : StoreState) :
    CrudResp × StoreState :=
  if truthy body.name then
    let id := genId s.next
    let obj : Item :=
      { id := id
        name := body.name.getD ""
        description := body.description.getD ""
        created_at := now
        updated_at := none }
    (CrudResp.created obj, { items := s.items ++ [(id, obj)], next := s.next + 1 })
  else
    (CrudResp.badRequest, s)

/-- `get_item` (GET /api/items/id): 404 when the id is absent, else the item. -/
def get_item (id : String) (s : StoreState) : CrudResp :=
  match s.items.lookup id with
  | none => CrudResp.notFound
  | some it => CrudResp.okItem it

/-- The field mutations `update_item` performs on the stored item:
`name` only when truthy, `description` whenever the key is present
(even with an empty value), and `updated_at := now` always. -/
def applyUpd (body : ItemBody) (now : Nat) (it : Item) : Item :=
  let it1 := if truthy body.name then { it with name := body.name.getD "" } else it
  let it2 := match body.description with
    | some d => { it1 with description := d }
    | none => it1
  { it2 with updated_at := some now }

/-- `update_item` (PUT /api/items/id): 404 when the id is absent, else apply
the partial update in place and return the updated item. -/
def update_item (id : String) (body : ItemBody) (now : Nat) (s : StoreState) :
    CrudResp × StoreState :=
  match s.items.lookup id with
  | none => (CrudResp.notFound, s)
  | some it =>
      (CrudResp.okItem (applyUpd body now it),
       { s with items := updateEntry s.items id (applyUpd body now) })

/-- `delete_item` (DELETE /api/items/id): 404 when the id is absent, else
remove the entry and acknowledge with the id. -/
def delete_item (id : String) (s : StoreState) : CrudResp × StoreState :=
  match s.items.lookup id with
  | none => (CrudResp.notFound, s)
  | some _ => (CrudResp.okDeleted id, { s with items := eraseEntry s.items id })

/-- One sample item as built by `_create_sample_items` (timestamps at process
start are modelled as clock value 0). -/
def sampleItem (idx : Nat) (nm descr : String) : String × Item :=
  (genId idx,
   { id := genId idx, name := nm, description := descr
     created_at := 0, updated_at := none })

/-- The store right after startup: `_create_sample_items()` has inserted
three sample items; the fresh-id counter has handed out three ids. -/
def initState : StoreState :=
  { items :=
      [ sampleItem 0 "Sample Item 1" "A sample item number 1"
      , sampleItem 1 "Sample Item 2" "A sample item number 2"
      , sampleItem 2 "Sample Item 3" "A sample item number 3" ]
    next := 3 }

/-! ## Token service

The source signs and decodes tokens with the external PyJWT library
(`jwt.encode` / `jwt.decode`). The library is modelled here concretely:
a token string carries the algorithm name, the claim payload, and a
signature that is a deterministic function of the payload and the secret;
`jwtDecode` parses the string, rejects an algorithm outside the allowed
list, rejects a signature that does not recompute from the payload and the
given secret, and rejects an expired payload (PyJWT treats a token as
expired exactly when `exp` is at or before the current time). Fields are
framed as length-prefixed segments so that parsing inverts encoding for
every payload. -/

/-- The claim set, exactly the payload dict built in `generate_token`:
keys `sub`, `iat`, `exp`, `iss`, `ver`. -/
structure Claims where
  sub : String
  iat : Nat
  exp : Nat
  iss : String
  ver : String
deriving DecidableEq

/-- Length-prefixed framing of one segment: the length in unary, a colon,
then the content. -/
def netstr (s : List Char) : List Char :=
  List.replicate s.length 'L' ++ ':' :: s

/-- Count the leading run of the unary length marker. -/
def countL : List Char → Nat × List Char
  | [] => (0, [])
  | c :: rest =>
      if c = 'L' then
        let r := countL rest
        (r.1 + 1, r.2)
      else (0, c :: rest)

/-- Read one length-prefixed segment; return its content and the remainder. -/
def parseField (l : List Char) : Option (List Char × List Char) :=
  let r := countL l
  match r.2 with
  | ':' :: r2 => if r.1 ≤ r2.length then some (r2.take r.1, r2.drop r.1) else none
  | _ => none

/-- Serialize a claim set: the five fields in order, numbers in unary. -/
def encodeClaims (c : Claims) : List Char :=
  netstr c.sub.data ++
    (netstr (List.replicate c.iat 'x') ++
      (netstr (List.replicate c.exp 'x') ++
        (netstr c.iss.data ++ netstr c.ver.data)))

/-- Parse a claim set: five segments and nothing after them. -/
def parseClaims (l : List Char) : Option Claims :=
  match parseField l with
  | none => none
  | some (f1, l1) =>
    match parseField l1 with
    | none => none
    | some (f2, l2) =>
      match parseField l2 with
      | none => none
      | some (f3, l3) =>
        match parseField l3 with
        | none => none
        | some (f4, l4) =>
          match parseField l4 with
          | none => none
          | some (f5, l5) =>
            if l5.isEmpty then
              some { sub := String.mk f1, iat := f2.length, exp := f3.length
                     iss := String.mk f4, ver := String.mk f5 }
            else none

/-- The signature over a serialized payload under a secret (the model of the
HMAC the library computes): verification recomputes it and compares. -/
def hmacSig (msg secret : List Char) : List Char :=
  netstr secret ++ msg

/-- The model of `jwt.encode(payload, secret, algorithm=alg)`: algorithm
segment, payload segment, signature segment. -/
def encodeToken (c : Claims) (secret : String) (alg : String) : List Char :=
  netstr alg.data ++
    (netstr (encodeClaims c) ++ netstr (hmacSig (encodeClaims c) secret.data))

/-- Split a token string into algorithm, serialized payload, and signature. -/
def parseToken (l : List Char) : Option (List Char × List Char × List Char) :=
  match parseField l with
  | none => none
  | some (alg, l1) =>
    match parseField l1 with
    | none => none
    | some (p, l2) =>
      match parseField l2 with
      | none => none
      | some (sig, l3) => if l3.isEmpty then some (alg, p, sig) else none

/-- The model of `jwt.decode(token, secret, algorithms=algs)` evaluated at
clock value `now`: reject unparseable tokens, a disallowed algorithm, a
signature that does not verify under `secret`, and an expired claim set
(expired exactly when `exp` is at or before `now`); otherwise return the
claim set. The error strings name the PyJWT exception classes. -/
def jwtDecode (tok : String) (secret : String) (algs : List String) (now : Nat) :
    Except String Claims :=
  match parseToken tok.data with
  | none => Except.error "DecodeError"
  | some (alg, p, sig) =>
    if algs.contains (String.mk alg) then
      if sig = hmacSig p secret.data then
        match parseClaims p with
        | none => Except.error "DecodeError"
        | some c =>
            if c.exp ≤ now then Except.error "ExpiredSignatureError"
            else Except.ok c
      else Except.error "InvalidSignatureError"
    else Except.error "InvalidAlgorithmError"

/-- The payload dict built by `generate_token`: the source reads the clock
twice, `iat = int(time.time())` at the first read `t1` and
`exp = int(time.time()) + TOKEN_EXP_MINUTES * 60` at the second read `t2`. -/
def generate_token_payload (username : String) (t1 t2 : Nat) : Claims :=
  { sub := username
    iat := t1
    exp := t2 + TOKEN_EXP_MINUTES * 60
    iss := APP_NAME
    ver := VERSION }

/-- `generate_token`: sign the payload with the server secret under the
configured algorithm and return the encoded token string. -/
def generate_token (username : String) (t1 t2 : Nat) : String :=
  String.mk (encodeToken (generate_token_payload username t1 t2) JWT_SECRET JWT_ALGO)

/-! ## Login endpoint -/

/-- JSON body of a login request: `username` and `password` keys, each
possibly absent. -/
structure LoginBody where
  username : Option String
  password : Option String
deriving DecidableEq

/-- Responses of POST /api/auth/login. -/
inductive LoginResp where
  /-- 200 with a token and the expiry horizon in minutes. -/
  | ok (token : String) (expires_in_minutes : Nat)
  /-- 401 with body consisting of an error key. -/
  | unauthorized (error : String)
deriving DecidableEq

/-- Substring test on character lists (the Python `in` operator on strings):
the pattern is a prefix of some suffix. -/
def listContains (pat : List Char) : List Char → Bool
  | [] => pat.isEmpty
  | c :: rest => pat.isPrefixOf (c :: rest) || listContains pat rest

/-- `pat in s` for strings. -/
def strContains (s pat : String) : Bool :=
  listContains pat.data s.data

/-- `api_login` (POST /api/auth/login): both fields must be truthy, then the
demo rule accepts when the password contains "demo" or the username is
exactly "demo_user"; every other case is 401. `t1 t2` are the two clock
reads of `generate_token`. -/
def api_login (body : LoginBody) (t1 t2 : Nat) : LoginResp :=
  let username := body.username.getD ""
  let password := body.password.getD ""
  if truthy body.username && truthy body.password then
    if strContains password "demo" || username == "demo_user" then
      LoginResp.ok (generate_token username t1 t2) TOKEN_EXP_MINUTES
    else LoginResp.unauthorized "invalid credentials"
  else LoginResp.unauthorized "invalid credentials"

/-- Did the login succeed with a 200 response carrying a non-empty token? -/
def loginSuccess : LoginResp → Bool
  | LoginResp.ok tok _ => !(tok == "")
  | LoginResp.unauthorized _ => false

/-! ## Auth guard and the protected endpoint -/

/-- Responses of handlers wrapped by `token_required`. -/
inductive SecureResp where
  /-- 200 with a message and an issuance timestamp. -/
  | okMsg (message : String) (issued_at : Nat)
  /-- 401 with body consisting of an error key (missing or malformed
  Authorization header). -/
  | errMissing (error : String)
  /-- 401 with body consisting of an error key and a detail key (token
  failed validation). -/
  | errInvalid (error detail : String)
deriving DecidableEq

/-- HTTP status code of a guarded response. -/
def SecureResp.status : SecureResp → Nat
  | okMsg _ _ => 200
  | errMissing _ => 401
  | errInvalid _ _ => 401

/-- `auth.startswith("Bearer ")` from the source. -/
def startsWithBearer (auth : String) : Bool :=
  "Bearer ".data.isPrefixOf auth.data

/-- The `token_required` decorator: read the Authorization header (empty
string when the header is absent), require the literal "Bearer " prefix,
decode the rest of the header (the source slices it off with
`auth.split(" ", 1)[1]`, which on a string whose first space is the one
ending "Bearer " is exactly the substring from index 7), and on success run
the wrapped handler on the `sub` claim. `now` is the validation clock,
`now2` the clock the wrapped handler may read. -/
def token_required (f : String → Nat → SecureResp) (authHeader : Option String)
    (now now2 : Nat) : SecureResp :=
  let auth := authHeader.getD ""
  if startsWithBearer auth then
    match jwtDecode (String.mk (auth.data.drop 7)) JWT_SECRET [JWT_ALGO] now with
    | Except.error e => SecureResp.errInvalid "Invalid or expired token" e
    | Except.ok c => f c.sub now2
  else SecureResp.errMissing "Missing or invalid Authorization header"

/-- The body of `api_secure`: greet the resolved user and report a fresh
timestamp. -/
def api_secure_handler (user : String) (now2 : Nat) : SecureResp :=
  SecureResp.okMsg ("Hello " ++ user ++ ", this is a protected endpoint.") now2

/-- `api_secure` (GET /api/secure): the handler wrapped in the guard. -/
def api_secure (authHeader : Option String) (now now2 : Nat) : SecureResp :=
  token_required api_secure_handler authHeader now now2

/-! ## Store reachability and invariant -/

/-- One mutating request against the store. -/
inductive Step : StoreState → StoreState → Prop where
  | create : ∀ (body : ItemBody) (now : Nat) (s : StoreState),
      Step s (create_item body now s).2
  | update : ∀ (id : String) (body : ItemBody) (now : Nat) (s : StoreState),
      Step s (update_item id body now s).2
  | delete : ∀ (id : String) (s : StoreState),
      Step s (delete_item id s).2

/-- Any finite sequence of mutating requests. -/
def ReachableFrom : StoreState → StoreState → Prop :=
  Relation.ReflTransGen Step

/-- States the running service can be in. -/
def Reachable (s : StoreState) : Prop :=
  ReachableFrom initState s

/-- The store invariant: every key is the id of the item stored under it,
and every key was handed out by the fresh-id supply below the counter. -/
def StoreInv (s : StoreState) : Prop :=
  (∀ p ∈ s.items, p.2.id = p.1) ∧ (∀ p ∈ s.items, ∃ i, i < s.next ∧ p.1 = genId i)

/-! ## Sanity checks on concrete inputs -/

example : get_item (genId 0) initState =
    CrudResp.okItem (sampleItem 0 "Sample Item 1" "A sample item number 1").2 := by decide

example : parseClaims (encodeClaims { sub := "u", iat := 1, exp := 2, iss := "i", ver := "v" }) =
    some { sub := "u", iat := 1, exp := 2, iss := "i", ver := "v" } := by decide

example : parseField (netstr "ab".data ++ "rest".data) = some ("ab".data, "rest".data) := by
  decide

example : api_secure none 0 0 =
    SecureResp.errMissing "Missing or invalid Authorization header" := by decide

example : api_secure (some "Bearer garbage") 0 0 =
    SecureResp.errInvalid "Invalid or expired token" "DecodeError" := by decide

example : api_login { username := some "demo_user", password := some "" } 0 0 =
    LoginResp.unauthorized "invalid credentials" := by decide

/-! ## Store lemmas -/

theorem genId_length (n : Nat) : (genId n).length = 5 + n := by
  simp [genId, String.length_append, String.length]
  omega

theorem genId_inj {m n : Nat} (h : genId m = genId n) : m = n := by
  have h2 := congrArg String.length h
  rw [genId_length, genId_length] at h2
  omega

theorem genId_ne_empty (n : Nat) : genId n ≠ "" := by
  intro h
  have h2 := congrArg String.length h
  rw [genId_length] at h2
  simp [String.length] at h2

theorem lookup_updateEntry (l : List (String × Item)) (k : String) (f : Item → Item) :
    (updateEntry l k f).lookup k = (l.lookup k).map f := by
  induction l with
  | nil => rfl
  | cons p rest ih =>
    obtain ⟨a, b⟩ := p
    by_cases h : a = k
    · simp [updateEntry, List.lookup_cons, h]
    · have hba : (k == a) = false := by simp [Ne.symm h]
      simpa [updateEntry, List.lookup_cons, h, hba] using ih

theorem lookup_eraseEntry (l : List (String × Item)) (k : String) :
    (eraseEntry l k).lookup k = none := by
  induction l with
  | nil => rfl
  | cons p rest ih =>
    obtain ⟨a, b⟩ := p
    by_cases h : a = k
    · simpa [eraseEntry, h] using ih
    · have hba : (k == a) = false := by simp [Ne.symm h]
      simpa [eraseEntry, h, List.lookup_cons, hba] using ih

theorem lookup_snoc_fresh (l : List (String × Item)) (k : String) (v : Item)
    (h : l.lookup k = none) : (l ++ [(k, v)]).lookup k = some v := by
  rw [List.lookup_append, h]
  simp

theorem applyUpd_id (body : ItemBody) (now : Nat) (it : Item) :
    (applyUpd body now it).id = it.id := by
  by_cases h : truthy body.name <;> cases hd : body.description <;>
    simp [applyUpd, h, hd]

theorem applyUpd_created_at (body : ItemBody) (now : Nat) (it : Item) :
    (applyUpd body now it).created_at = it.created_at := by
  by_cases h : truthy body.name <;> cases hd : body.description <;>
    simp [applyUpd, h, hd]

theorem applyUpd_name_of_not_truthy (body : ItemBody) (now : Nat) (it : Item)
    (h : truthy body.name = false) : (applyUpd body now it).name = it.name := by
  cases hd : body.description <;> simp [applyUpd, h, hd]

theorem applyUpd_description_of_key (body : ItemBody) (now : Nat) (it : Item)
    (d : String) (h : body.description = some d) :
    (applyUpd body now it).description = d := by
  by_cases hn : truthy body.name <;> simp [applyUpd, h, hn]

theorem storeInv_init : StoreInv initState := by
  constructor
  · intro p hp
    simp only [initState, sampleItem, List.mem_cons, List.not_mem_nil, or_false] at hp
    rcases hp with rfl | rfl | rfl <;> rfl
  · intro p hp
    simp only [initState, sampleItem, List.mem_cons, List.not_mem_nil, or_false] at hp
    rcases hp with rfl | rfl | rfl
    · exact ⟨0, by decide, rfl⟩
    · exact ⟨1, by decide, rfl⟩
    · exact ⟨2, by decide, rfl⟩

theorem storeInv_step {s t : StoreState} (hst : Step s t) (h : StoreInv s) :
    StoreInv t := by
  cases hst with
  | create body now s =>
    by_cases hb : truthy body.name
    · simp only [create_item, hb, if_true]
      constructor
      · intro p hp
        rcases List.mem_append.mp hp with hold | hnew
        · exact h.1 p hold
        · simp only [List.mem_singleton] at hnew
          subst hnew
          rfl
      · intro p hp
        rcases List.mem_append.mp hp with hold | hnew
        · obtain ⟨i, hi, hk⟩ := h.2 p hold
          refine ⟨i, ?_, hk⟩
          show i < s.next + 1
          omega
        · simp only [List.mem_singleton] at hnew
          subst hnew
          refine ⟨s.next, ?_, rfl⟩
          show s.next < s.next + 1
          omega
    · simpa [create_item, hb] using h
  | update id body now s =>
    cases hl : s.items.lookup id with
    | none => simpa [update_item, hl] using h
    | some it0 =>
      simp only [update_item, hl]
      constructor
      · intro p hp
        simp only [updateEntry, List.mem_map] at hp
        obtain ⟨q, hq, hfq⟩ := hp
        by_cases hqk : q.1 == id
        · simp only [hqk, if_true] at hfq
          subst hfq
          simpa [applyUpd_id] using h.1 q hq
        · simp only [hqk] at hfq
          simp only [Bool.false_eq_true, if_false] at hfq
          subst hfq
          exact h.1 q hq
      · intro p hp
        simp only [updateEntry, List.mem_map] at hp
        obtain ⟨q, hq, hfq⟩ := hp
        obtain ⟨i, hi, hk⟩ := h.2 q hq
        by_cases hqk : q.1 == id
        · simp only [hqk, if_true] at hfq
          subst hfq
          exact ⟨i, hi, hk⟩
        · simp only [hqk] at hfq
          simp only [Bool.false_eq_true, if_false] at hfq
          subst hfq
          exact ⟨i, hi, hk⟩
  | delete id s =>
    cases hl : s.items.lookup id with
    | none => simpa [delete_item, hl] using h
    | some it0 =>
      simp only [delete_item, hl]
      constructor
      · intro p hp
        exact h.1 p (List.mem_of_mem_filter hp)
      · intro p hp
        exact h.2 p (List.mem_of_mem_filter hp)

theorem step_next_mono {s t : StoreState} (hst : Step s t) : s.next ≤ t.next := by
  cases hst with
  | create body now s =>
    by_cases hb : truthy body.name <;> simp [create_item, hb]
  | update id body now s =>
    cases hl : s.items.lookup id <;> simp [update_item, hl]
  | delete id s =>
    cases hl : s.items.lookup id <;> simp [delete_item, hl]

theorem reachableFrom_next_mono {s t : StoreState} (h : ReachableFrom s t) :
    s.next ≤ t.next := by
  induction h with
  | refl => exact Nat.le_refl _
  | tail hst hbc ih => exact Nat.le_trans ih (step_next_mono hbc)

theorem storeInv_reachableFrom {s t : StoreState} (h : ReachableFrom s t)
    (hs : StoreInv s) : StoreInv t := by
  induction h with
  | refl => exact hs
  | tail hst hbc ih => exact storeInv_step hbc ih

theorem storeInv_reachable {s : StoreState} (h : Reachable s) : StoreInv s :=
  storeInv_reachableFrom h storeInv_init

/-! ## Token lemmas -/

theorem strMk_data (s : String) : String.mk s.data = s := rfl

theorem countL_replicate (n : Nat) (r : List Char) :
    countL (List.replicate n 'L' ++ ':' :: r) = (n, ':' :: r) := by
  induction n with
  | zero => simp [countL]
  | succ n ih => simp [List.replicate_succ, countL, ih]

theorem parseField_netstr (s rest : List Char) :
    parseField (netstr s ++ rest) = some (s, rest) := by
  have h1 : netstr s ++ rest = List.replicate s.length 'L' ++ ':' :: (s ++ rest) := by
    simp [netstr]
  have hle : s.length ≤ (s ++ rest).length := by simp
  rw [parseField, h1, countL_replicate]
  simp [hle, List.take_left, List.drop_left]

theorem parseField_netstr_nil (s : List Char) :
    parseField (netstr s) = some (s, []) := by
  simpa using parseField_netstr s []

theorem parseClaims_encodeClaims (c : Claims) :
    parseClaims (encodeClaims c) = some c := by
  simp [encodeClaims, parseClaims, parseField_netstr, parseField_netstr_nil, strMk_data]

theorem parseToken_encodeToken (c : Claims) (secret alg : String) :
    parseToken (encodeToken c secret alg) =
      some (alg.data, encodeClaims c, hmacSig (encodeClaims c) secret.data) := by
  simp [encodeToken, parseToken, parseField_netstr, parseField_netstr_nil]

theorem jwtDecode_generate_token (u : String) (t1 t2 now : Nat) :
    jwtDecode (generate_token u t1 t2) JWT_SECRET [JWT_ALGO] now =
      if (generate_token_payload u t1 t2).exp ≤ now then
        Except.error "ExpiredSignatureError"
      else Except.ok (generate_token_payload u t1 t2) := by
  have hdata : (generate_token u t1 t2).data =
      encodeToken (generate_token_payload u t1 t2) JWT_SECRET JWT_ALGO := rfl
  have halg : ([JWT_ALGO].contains JWT_ALGO) = true := by decide
  simp [jwtDecode, hdata, parseToken_encodeToken, strMk_data, halg,
    parseClaims_encodeClaims]

theorem data_bearer_append (t : String) :
    ("Bearer " ++ t).data = 'B' :: 'e' :: 'a' :: 'r' :: 'e' :: 'r' :: ' ' :: t.data := rfl

theorem startsWithBearer_append (t : String) :
    startsWithBearer ("Bearer " ++ t) = true := by
  simp [startsWithBearer, data_bearer_append, List.isPrefixOf]

theorem drop_bearer_append (t : String) :
    ("Bearer " ++ t).data.drop 7 = t.data := rfl

theorem generate_token_ne_empty (u : String) (t1 t2 : Nat) :
    generate_token u t1 t2 ≠ "" := by
  intro h
  have h2 : (generate_token u t1 t2).data = ([] : List Char) := by rw [h]
  rw [show (generate_token u t1 t2).data =
      encodeToken (generate_token_payload u t1 t2) JWT_SECRET JWT_ALGO from rfl] at h2
  simp [encodeToken, netstr, List.append_eq_nil] at h2

theorem lookup_fresh_none {s : StoreState} (h : StoreInv s) :
    s.items.lookup (genId s.next) = none := by
  rw [List.lookup_eq_none_iff]
  intro p hp
  obtain ⟨i, hi, hk⟩ := h.2 p hp
  rw [hk]
  simp only [bne_iff_ne, ne_eq]
  intro heq
  have := genId_inj heq
  omega

/-! ## Claim theorems -/

/-- Claim C1, counterexample: at username "demo_user" with an empty password
the demo disjunction holds, yet the response is 401 and not a 200 with a
non-empty token, so the stated equivalence fails. -/
theorem login_rule_iff_cex :
    ¬ (loginSuccess (api_login { username := some "demo_user", password := some "" } 0 0)
          = true ↔
        (strContains "" "demo" = true ∨ ("demo_user" : String) = "demo_user")) := by
  decide

/-- Claim C1, amended: the response is 200 with a non-empty token exactly
when both the username and the password are present and non-empty AND the
demo rule (password contains "demo", or username is "demo_user") holds;
in every other case the response is 401 with an error key. -/
theorem login_rule_iff (body : LoginBody) (t1 t2 : Nat) :
    (loginSuccess (api_login body t1 t2) = true ↔
      (truthy body.username = true ∧ truthy body.password = true ∧
        (strContains (body.password.getD "") "demo" = true ∨
          body.username.getD "" = "demo_user"))) ∧
    (loginSuccess (api_login body t1 t2) = false →
      api_login body t1 t2 = LoginResp.unauthorized "invalid credentials") := by
  constructor
  · by_cases hu : truthy body.username <;> by_cases hp : truthy body.password <;>
      by_cases hd : (strContains (body.password.getD "") "demo" ||
          (body.username.getD "" == "demo_user")) = true <;>
      simp_all [api_login, loginSuccess, generate_token_ne_empty]
  · by_cases hu : truthy body.username <;> by_cases hp : truthy body.password <;>
      by_cases hd : (strContains (body.password.getD "") "demo" ||
          (body.username.getD "" == "demo_user")) = true <;>
      simp_all [api_login, loginSuccess, generate_token_ne_empty]

theorem login_rule_iff_witness :
    ((loginSuccess (api_login { username := some "bob", password := some "xdemoy" } 0 0)
        = true ↔
      (truthy (some "bob") = true ∧ truthy (some "xdemoy") = true ∧
        (strContains ((some "xdemoy").getD "") "demo" = true ∨
          (some "bob").getD "" = "demo_user"))) ∧
    (loginSuccess (api_login { username := some "bob", password := some "xdemoy" } 0 0)
        = false →
      api_login { username := some "bob", password := some "xdemoy" } 0 0 =
        LoginResp.unauthorized "invalid credentials")) :=
  login_rule_iff { username := some "bob", password := some "xdemoy" } 0 0

/-- Claim C10: the login endpoint answers 401 whenever the username or the
password is absent or empty, regardless of the demo rule. -/
theorem login_missing_or_empty_unauthorized (body : LoginBody) (t1 t2 : Nat)
    (h : body.username = none ∨ body.username = some "" ∨
      body.password = none ∨ body.password = some "") :
    api_login body t1 t2 = LoginResp.unauthorized "invalid credentials" := by
  have h2 : truthy body.username = false ∨ truthy body.password = false := by
    rcases h with h | h | h | h <;> rw [h] <;> simp [truthy]
  rcases h2 with h2 | h2 <;> simp [api_login, h2]

theorem login_missing_or_empty_unauthorized_witness :
    api_login { username := some "demo_user", password := some "" } 0 0 =
      LoginResp.unauthorized "invalid credentials" :=
  login_missing_or_empty_unauthorized
    { username := some "demo_user", password := some "" } 0 0
    (Or.inr (Or.inr (Or.inr rfl)))

/-- Claim C6, counterexample: `generate_token` reads the clock once for
`iat` and again for `exp`; when the two reads differ (first read 0, second
read 1) the claimed equation `exp = iat + ttl` fails. -/
theorem token_exp_two_reads_cex :
    ¬ ((generate_token_payload "demo_user" 0 1).exp =
        (generate_token_payload "demo_user" 0 1).iat + TOKEN_EXP_MINUTES * 60) := by
  decide

/-- Claim C6, amended: `exp` always equals the second clock read plus the
fixed TTL, and whenever the two clock reads of `generate_token` return the
same value the claimed equation `exp = iat + TOKEN_EXP_MINUTES * 60`
holds. -/
theorem token_exp_eq_iat_add_ttl (u : String) (t1 t2 t : Nat) :
    (generate_token_payload u t1 t2).exp = t2 + TOKEN_EXP_MINUTES * 60 ∧
    (generate_token_payload u t t).exp =
      (generate_token_payload u t t).iat + TOKEN_EXP_MINUTES * 60 :=
  ⟨rfl, rfl⟩

/-- Claim C2: creating an item with a non-empty name and no description,
then fetching it by the returned id, yields that very record: its name is
the given name, its id is non-empty, and its description is the empty
string. -/
theorem create_get_roundtrip (s : StoreState) (X : String) (now : Nat)
    (hs : Reachable s) (hX : X ≠ "") :
    ∃ it s2,
      create_item { name := some X, description := none } now s =
        (CrudResp.created it, s2) ∧
      it.name = X ∧ it.id ≠ "" ∧ it.description = "" ∧
      get_item it.id s2 = CrudResp.okItem it := by
  have hinv := storeInv_reachable hs
  have htr : truthy (some X) = true := by simp [truthy, hX]
  have hfresh := lookup_fresh_none hinv
  refine ⟨{ id := genId s.next, name := X, description := "",
            created_at := now, updated_at := none },
          { items := s.items ++ [(genId s.next,
              { id := genId s.next, name := X, description := "",
                created_at := now, updated_at := none })], next := s.next + 1 },
          ?_, rfl, genId_ne_empty s.next, rfl, ?_⟩
  · simp [create_item, htr]
  · show get_item (genId s.next) _ = _
    simp [get_item, lookup_snoc_fresh _ _ _ hfresh]

theorem create_get_roundtrip_witness :
    ("Widget" : String) ≠ "" ∧
    ∃ it s2,
      create_item { name := some "Widget", description := none } 0 initState =
        (CrudResp.created it, s2) ∧
      it.name = "Widget" ∧ it.id ≠ "" ∧ it.description = "" ∧
      get_item it.id s2 = CrudResp.okItem it :=
  ⟨by decide,
    create_get_roundtrip initState "Widget" 0 Relation.ReflTransGen.refl (by decide)⟩

/-- Claim C3: for an item present in the store, update applies only the
fields present in the request: when the name field is absent or empty the
stored name is unchanged, a present description key (even an empty one)
replaces the stored description, and the id and created_at fields are
unchanged. -/
theorem update_partial_fields (s : StoreState) (id : String) (it : Item)
    (body : ItemBody) (now : Nat) (h : s.items.lookup id = some it) :
    ∃ it2,
      update_item id body now s =
        (CrudResp.okItem it2,
          { s with items := updateEntry s.items id (applyUpd body now) }) ∧
      ((update_item id body now s).2).items.lookup id = some it2 ∧
      (truthy body.name = false → it2.name = it.name) ∧
      (∀ d, body.description = some d → it2.description = d) ∧
      it2.id = it.id ∧ it2.created_at = it.created_at := by
  refine ⟨applyUpd body now it, ?_, ?_, ?_, ?_, applyUpd_id body now it,
    applyUpd_created_at body now it⟩
  · simp [update_item, h]
  · simp [update_item, h, lookup_updateEntry]
  · intro hn
    exact applyUpd_name_of_not_truthy body now it hn
  · intro d hd
    exact applyUpd_description_of_key body now it d hd

theorem update_partial_fields_witness :
    initState.items.lookup (genId 1) =
      some (sampleItem 1 "Sample Item 2" "A sample item number 2").2 ∧
    ∃ it2,
      update_item (genId 1) { name := some "", description := some "" } 5 initState =
        (CrudResp.okItem it2,
          { initState with
              items := updateEntry initState.items (genId 1)
                (applyUpd { name := some "", description := some "" } 5) }) ∧
      ((update_item (genId 1) { name := some "", description := some "" } 5
          initState).2).items.lookup (genId 1) = some it2 ∧
      (truthy (some "") = false →
        it2.name = (sampleItem 1 "Sample Item 2" "A sample item number 2").2.name) ∧
      (∀ d, (some "" : Option String) = some d → it2.description = d) ∧
      it2.id = (sampleItem 1 "Sample Item 2" "A sample item number 2").2.id ∧
      it2.created_at =
        (sampleItem 1 "Sample Item 2" "A sample item number 2").2.created_at :=
  ⟨by decide,
    update_partial_fields initState (genId 1)
      (sampleItem 1 "Sample Item 2" "A sample item number 2").2
      { name := some "", description := some "" } 5 (by decide)⟩

/-- Claim C4: after a successful delete of an id, fetching that id answers
404 and a further delete also answers 404 while leaving the store as it
is. -/
theorem delete_finality (s : StoreState) (id : String) (it : Item)
    (h : s.items.lookup id = some it) :
    (delete_item id s).1 = CrudResp.okDeleted id ∧
    get_item id (delete_item id s).2 = CrudResp.notFound ∧
    (get_item id (delete_item id s).2).status = 404 ∧
    delete_item id (delete_item id s).2 =
      (CrudResp.notFound, (delete_item id s).2) ∧
    (delete_item id (delete_item id s).2).1.status = 404 := by
  refine ⟨?_, ?_, ?_, ?_, ?_⟩ <;>
    simp [delete_item, h, get_item, lookup_eraseEntry, CrudResp.status]

theorem delete_finality_witness :
    initState.items.lookup (genId 0) =
      some (sampleItem 0 "Sample Item 1" "A sample item number 1").2 ∧
    ((delete_item (genId 0) initState).1 = CrudResp.okDeleted (genId 0) ∧
      get_item (genId 0) (delete_item (genId 0) initState).2 = CrudResp.notFound ∧
      (get_item (genId 0) (delete_item (genId 0) initState).2).status = 404 ∧
      delete_item (genId 0) (delete_item (genId 0) initState).2 =
        (CrudResp.notFound, (delete_item (genId 0) initState).2) ∧
      (delete_item (genId 0) (delete_item (genId 0) initState).2).1.status = 404) :=
  ⟨by decide,
    delete_finality initState (genId 0)
      (sampleItem 0 "Sample Item 1" "A sample item number 1").2 (by decide)⟩

/-- Claim C9: whenever create, update, or delete answers an error (400 for
a missing name, 404 for an unknown id), the store is exactly what it was
before the operation. -/
theorem error_atomicity (s : StoreState) (body : ItemBody) (now : Nat)
    (id : String) :
    ((create_item body now s).1 = CrudResp.badRequest →
      (create_item body now s).2 = s) ∧
    ((update_item id body now s).1 = CrudResp.notFound →
      (update_item id body now s).2 = s) ∧
    ((delete_item id s).1 = CrudResp.notFound → (delete_item id s).2 = s) := by
  refine ⟨?_, ?_, ?_⟩
  · by_cases hb : truthy body.name <;> simp [create_item, hb]
  · cases hl : s.items.lookup id <;> simp [update_item, hl]
  · cases hl : s.items.lookup id <;> simp [delete_item, hl]

theorem error_atomicity_witness :
    ((create_item { name := none, description := none } 0 initState).1 =
        CrudResp.badRequest →
      (create_item { name := none, description := none } 0 initState).2 =
        initState) ∧
    ((update_item "zzz" { name := none, description := none } 0 initState).1 =
        CrudResp.notFound →
      (update_item "zzz" { name := none, description := none } 0 initState).2 =
        initState) ∧
    ((delete_item "zzz" initState).1 = CrudResp.notFound →
      (delete_item "zzz" initState).2 = initState) :=
  error_atomicity initState { name := none, description := none } 0 "zzz"

/-- Claim C5: a token issued by `generate_token` (clock reads `t1 ≤ t2`)
validates at any time strictly before `iat + ttl` and validation returns
the claim set whose subject is the issuing username; validation fails at or
past `exp`, and fails on any parseable token whose signature does not
recompute under the server secret. -/
theorem token_validate_correct (u : String) (t1 t2 now : Nat) (h12 : t1 ≤ t2) :
    (now < t1 + TOKEN_EXP_MINUTES * 60 →
      jwtDecode (generate_token u t1 t2) JWT_SECRET [JWT_ALGO] now =
        Except.ok (generate_token_payload u t1 t2) ∧
      (generate_token_payload u t1 t2).sub = u) ∧
    ((generate_token_payload u t1 t2).exp ≤ now →
      jwtDecode (generate_token u t1 t2) JWT_SECRET [JWT_ALGO] now =
        Except.error "ExpiredSignatureError") ∧
    (∀ tok : String, ∀ alg p sig : List Char,
      parseToken tok.data = some (alg, p, sig) →
      sig ≠ hmacSig p JWT_SECRET.data →
      ∃ e, jwtDecode tok JWT_SECRET [JWT_ALGO] now = Except.error e) := by
  have httl : TOKEN_EXP_MINUTES * 60 = 3600 := rfl
  refine ⟨?_, ?_, ?_⟩
  · intro hlt
    rw [httl] at hlt
    have hexp : ¬ ((generate_token_payload u t1 t2).exp ≤ now) := by
      show ¬ (t2 + TOKEN_EXP_MINUTES * 60 ≤ now)
      rw [httl]
      omega
    rw [jwtDecode_generate_token, if_neg hexp]
    exact ⟨rfl, rfl⟩
  · intro hexp
    rw [jwtDecode_generate_token, if_pos hexp]
  · intro tok alg p sig hparse hsig
    by_cases halg : ([JWT_ALGO].contains (String.mk alg)) = true
    · refine ⟨"InvalidSignatureError", ?_⟩
      simp only [jwtDecode, hparse]
      rw [if_pos halg, if_neg hsig]
    · refine ⟨"InvalidAlgorithmError", ?_⟩
      simp only [jwtDecode, hparse]
      rw [if_neg halg]

theorem token_validate_correct_witness :
    (0 : Nat) ≤ 0 ∧
    (((0 : Nat) < 0 + TOKEN_EXP_MINUTES * 60 →
      jwtDecode (generate_token "demo_user" 0 0) JWT_SECRET [JWT_ALGO] 0 =
        Except.ok (generate_token_payload "demo_user" 0 0) ∧
      (generate_token_payload "demo_user" 0 0).sub = "demo_user") ∧
    ((generate_token_payload "demo_user" 0 0).exp ≤ 0 →
      jwtDecode (generate_token "demo_user" 0 0) JWT_SECRET [JWT_ALGO] 0 =
        Except.error "ExpiredSignatureError") ∧
    (∀ tok : String, ∀ alg p sig : List Char,
      parseToken tok.data = some (alg, p, sig) →
      sig ≠ hmacSig p JWT_SECRET.data →
      ∃ e, jwtDecode tok JWT_SECRET [JWT_ALGO] 0 = Except.error e)) :=
  ⟨Nat.le_refl 0, token_validate_correct "demo_user" 0 0 0 (Nat.le_refl 0)⟩

/-- Claim C7: GET /api/secure answers 401 when the Authorization header is
absent or lacks the literal "Bearer " prefix; answers 401 with an error and
a detail string when the bearer token fails validation; and answers 200
with a message containing the subject when given a freshly issued valid
token. -/
theorem secure_endpoint_auth_gate (h : Option String) (now now2 : Nat) :
    (h = none → api_secure h now now2 =
      SecureResp.errMissing "Missing or invalid Authorization header") ∧
    (∀ s : String, h = some s → startsWithBearer s = false →
      api_secure h now now2 =
        SecureResp.errMissing "Missing or invalid Authorization header") ∧
    (∀ s e : String, h = some s → startsWithBearer s = true →
      jwtDecode (String.mk (s.data.drop 7)) JWT_SECRET [JWT_ALGO] now =
        Except.error e →
      api_secure h now now2 = SecureResp.errInvalid "Invalid or expired token" e) ∧
    (∀ u : String, ∀ t1 t2 : Nat,
      h = some ("Bearer " ++ generate_token u t1 t2) → t1 ≤ t2 →
      now < t1 + TOKEN_EXP_MINUTES * 60 →
      ∃ m, api_secure h now now2 = SecureResp.okMsg m now2 ∧
        (∃ pre post, m = pre ++ u ++ post)) := by
  have httl : TOKEN_EXP_MINUTES * 60 = 3600 := rfl
  refine ⟨?_, ?_, ?_, ?_⟩
  · intro hn
    subst hn
    rfl
  · intro s hs hb
    subst hs
    simp [api_secure, token_required, hb]
  · intro s e hs hb hd
    subst hs
    simp [api_secure, token_required, hb, hd]
  · intro u t1 t2 hs h12 hlt
    subst hs
    rw [httl] at hlt
    have hok : jwtDecode (generate_token u t1 t2) JWT_SECRET [JWT_ALGO] now =
        Except.ok (generate_token_payload u t1 t2) := by
      rw [jwtDecode_generate_token]
      have hexp : ¬ ((generate_token_payload u t1 t2).exp ≤ now) := by
        show ¬ (t2 + TOKEN_EXP_MINUTES * 60 ≤ now)
        rw [httl]
        omega
      rw [if_neg hexp]
    refine ⟨"Hello " ++ u ++ ", this is a protected endpoint.", ?_,
      "Hello ", ", this is a protected endpoint.", rfl⟩
    simp [api_secure, token_required, startsWithBearer_append, strMk_data, hok,
      api_secure_handler, generate_token_payload]

theorem secure_endpoint_auth_gate_witness :
    (0 : Nat) ≤ 0 ∧
    ∃ m, api_secure (some ("Bearer " ++ generate_token "demo_user" 0 0)) 0 0 =
        SecureResp.okMsg m 0 ∧
      (∃ pre post, m = pre ++ "demo_user" ++ post) :=
  ⟨Nat.le_refl 0,
    (secure_endpoint_auth_gate
        (some ("Bearer " ++ generate_token "demo_user" 0 0)) 0 0).2.2.2
      "demo_user" 0 0 rfl (Nat.le_refl 0) (by decide)⟩

/-- Claim C8: in every reachable store state, every key equals the id field
of the item stored under it; and once a delete succeeds on an id, no create
reached later (after any further sequence of operations) produces an item
with that id. -/
theorem store_key_id_invariant (s : StoreState) (hs : Reachable s) :
    (∀ p ∈ s.items, p.2.id = p.1) ∧
    (∀ (id : String) (s2 t : StoreState) (body : ItemBody) (now : Nat)
        (it2 : Item) (t2 : StoreState),
      delete_item id s = (CrudResp.okDeleted id, s2) →
      ReachableFrom s2 t →
      create_item body now t = (CrudResp.created it2, t2) →
      it2.id ≠ id) := by
  have hinv := storeInv_reachable hs
  refine ⟨hinv.1, ?_⟩
  intro id s2 t body now it2 t2 hdel hrf hcr
  cases hl : s.items.lookup id with
  | none => simp [delete_item, hl] at hdel
  | some it0 =>
    have hs2 : s2 = { s with items := eraseEntry s.items id } := by
      simp [delete_item, hl] at hdel
      exact hdel.symm
    have hmem : (id, it0) ∈ s.items := by
      rcases List.lookup_eq_some_iff.mp hl with ⟨l₁, l₂, hsplit, -⟩
      rw [hsplit]
      exact List.mem_append.mpr (Or.inr (List.mem_cons_self _ _))
    obtain ⟨i, hi, hk⟩ := hinv.2 (id, it0) hmem
    have hnext : s.next ≤ t.next := by
      have h2 := reachableFrom_next_mono hrf
      rw [hs2] at h2
      exact h2
    by_cases hb : truthy body.name
    · have h2 : it2.id = genId t.next := by
        simp [create_item, hb] at hcr
        rw [← hcr.1]
      intro heq
      rw [h2] at heq
      have hk2 : id = genId i := hk
      rw [hk2] at heq
      have := genId_inj heq
      omega
    · simp [create_item, hb] at hcr

theorem store_key_id_invariant_witness :
    (∀ p ∈ initState.items, p.2.id = p.1) ∧
    (∀ (id : String) (s2 t : StoreState) (body : ItemBody) (now : Nat)
        (it2 : Item) (t2 : StoreState),
      delete_item id initState = (CrudResp.okDeleted id, s2) →
      ReachableFrom s2 t →
      create_item body now t = (CrudResp.created it2, t2) →
      it2.id ≠ id) :=
  store_key_id_invariant initState Relation.ReflTransGen.refl
